import Mathlib

/-!
Verification development for the FRED dashboard server core: the ETL job
orchestration and analysis execution subsystem.

The definitions below are a shallow embedding of the TypeScript sources:
  - server/storage.ts       (MemStorage: in-memory entity store)
  - server/api/etl.ts       (ETL router: job submission, scheduling, pipeline)
  - server/api/analysis.ts  (analysis router: correlation / forecast /
                             moving-averages / volatility)

Modelling conventions:
  - JavaScript Date values are epoch milliseconds, modelled as Int.
  - JavaScript numbers are modelled as Int (no claim here depends on
    fractional values).
  - A JS Map preserves insertion order; it is modelled as an association
    list (List (Nat x record)) where set replaces in place or appends.
  - null and undefined are modelled with Option; a TS Partial record is a
    structure of Option fields (a present field may itself set null, hence
    Option (Option _) for nullable columns).
  - JSON.parse output is modelled by the inductive type Json; the external
    process and the platform JSON parser are parameters of the functions
    that invoke them.
  - async/await code in the source never runs two mutations of one request
    interleaved (Node is single threaded and MemStorage methods contain no
    await); each storage method is therefore modelled as an atomic state
    transformer.
-/

/-- A parsed JSON document, as produced by JSON.parse. Numbers are modelled
as Int. -/
inductive Json where
  | null
  | bool (b : Bool)
  | num (n : Int)
  | str (s : String)
  | arr (elems : List Json)
  | obj (fields : List (String × Json))

/-- JS truthiness of a JSON value (NaN does not arise in this model). -/
def Json.truthy : Json → Bool
  | .null => false
  | .bool b => b
  | .num n => n != 0
  | .str s => s ≠ ""
  | .arr _ => true
  | .obj _ => true

/-- Property access j.k on a JSON value, returning none for undefined.
Property access on .null is handled separately (it throws in JS): see
jsField. -/
def Json.field : Json → String → Option Json
  | .obj fields, k => (fields.find? (fun p => p.1 == k)).map (fun p => p.2)
  | _, _ => none

/-- JS truthiness of a possibly-undefined value. -/
def optTruthy : Option Json → Bool
  | some j => j.truthy
  | none => false

/-- Property access that models the TypeError thrown when the receiver is
null. -/
def jsField (j : Json) (k : String) : Except String (Option Json) :=
  match j with
  | .null => .error ("Cannot read properties of null (reading " ++ k ++ ")")
  | _ => .ok (j.field k)

/-- The JS expression (v <some fallback>) written as v-or: the left operand
when truthy, otherwise the fallback; an absent (undefined) left operand also
falls back. -/
def jsOr (v : Option Json) (fallback : Json) : Json :=
  match v with
  | some j => if j.truthy then j else fallback
  | none => fallback

/-- Splitting a character list at every occurrence of sep, JS
String.prototype.split semantics for a one-character separator. -/
def splitChars (sep : Char) : List Char → List Char → List (List Char)
  | [], acc => [acc.reverse]
  | c :: cs, acc =>
    if c = sep then acc.reverse :: splitChars sep cs []
    else splitChars sep cs (c :: acc)

/-- Model of series.split(",") from the routers. -/
def jsSplitComma (s : String) : List String :=
  (splitChars ',' s.toList []).map String.mk

/-- Stable insertion of x into l, placing x before the first element y with
r x y = true. Used to model Array.prototype.sort (required to be stable by
the ECMAScript spec); for a consistent comparator the stable order is
unique, so any stable algorithm agrees with this one. -/
def jsInsertBy (r : α → α → Bool) (x : α) : List α → List α
  | [] => [x]
  | y :: ys => if r x y then x :: y :: ys else y :: jsInsertBy r x ys

/-- Stable sort by the boolean relation r (r a b meaning comparator(a,b) is
at most 0, i.e. a may precede b). -/
def jsSortBy (r : α → α → Bool) : List α → List α
  | [] => []
  | x :: xs => jsInsertBy r x (jsSortBy r xs)

/-- Association rows of a JS Map keyed by numeric id, in insertion order:
set replaces in place when the key exists and appends otherwise. -/
def setRows (k : Nat) (v : α) : List (Nat × α) → List (Nat × α)
  | [] => [(k, v)]
  | (k', v') :: rest =>
    if k' = k then (k, v) :: rest else (k', v') :: setRows k v rest

/-- Map.get on association rows. -/
def getRows (k : Nat) : List (Nat × α) → Option α
  | [] => none
  | (k', v) :: rest => if k' = k then some v else getRows k rest

/-- One entity collection of MemStorage: a Map plus its id counter
(userCurrentId, indicatorCurrentId, ...). -/
structure Table (α : Type) where
  rows : List (Nat × α)
  currentId : Nat

/-- A table as at MemStorage construction: empty map, counter 1. -/
def Table.empty : Table α := { rows := [], currentId := 1 }

def Table.set (t : Table α) (k : Nat) (v : α) : Table α :=
  { t with rows := setRows k v t.rows }

def Table.get (t : Table α) (k : Nat) : Option α :=
  getRows k t.rows

/-- The create pattern shared by all five MemStorage create methods: take
the current counter as id, store the record built from it, bump the
counter, return the stored record. -/
def Table.create (t : Table α) (mk : Nat → α) : α × Table α :=
  let id := t.currentId
  let v := mk id
  (v, { rows := setRows id v t.rows, currentId := id + 1 })

/-- All keys of a table are below its counter; true of every table reachable
through the MemStorage API, and the reason created ids are fresh. -/
def Table.fresh (t : Table α) : Prop :=
  ∀ kv ∈ t.rows, kv.1 < t.currentId

/-- users table rows (drizzle users schema). -/
structure InsertUser where
  username : String
  password : String

structure User extends InsertUser where
  id : Nat

/-- indicators table rows. The metadata-derived columns are stored verbatim
from JSON (the ETL ingestion path can store any JSON value there), so they
are typed Json. -/
structure InsertIndicator where
  symbol : String
  name : Json
  description : Json
  frequency : Json
  units : Json
  source : String
  lastUpdated : Int

structure Indicator extends InsertIndicator where
  id : Nat

structure InsertValue where
  indicatorId : Nat
  date : Int
  value : String

structure Value extends InsertValue where
  id : Nat

structure InsertEtlJob where
  task : String
  status : String
  startTime : Option Int
  endTime : Option Int
  recordsProcessed : Option Int
  error : Option String
  metadata : Option Json

structure EtlJob extends InsertEtlJob where
  id : Nat

structure InsertAnalysisResult where
  type : String
  indicators : List String
  parameters : Json
  results : Json
  createdAt : Int

structure AnalysisResult extends InsertAnalysisResult where
  id : Nat

/-- Partial InsertEtlJob, as passed to updateEtlJob: a present field
overrides, an absent one is kept. -/
structure EtlJobPatch where
  task : Option String := none
  status : Option String := none
  startTime : Option (Option Int) := none
  endTime : Option (Option Int) := none
  recordsProcessed : Option (Option Int) := none
  error : Option (Option String) := none
  metadata : Option (Option Json) := none

/-- The object spread of updateEtlJob: fields present in the patch replace
the stored ones, all others are kept. -/
def EtlJob.merge (j : EtlJob) (p : EtlJobPatch) : EtlJob :=
  { id := j.id
    task := p.task.getD j.task
    status := p.status.getD j.status
    startTime := p.startTime.getD j.startTime
    endTime := p.endTime.getD j.endTime
    recordsProcessed := p.recordsProcessed.getD j.recordsProcessed
    error := p.error.getD j.error
    metadata := p.metadata.getD j.metadata }

/-- Partial InsertIndicator, as passed to updateIndicator. -/
structure IndicatorPatch where
  symbol : Option String := none
  name : Option Json := none
  description : Option Json := none
  frequency : Option Json := none
  units : Option Json := none
  source : Option String := none
  lastUpdated : Option Int := none

def Indicator.merge (i : Indicator) (p : IndicatorPatch) : Indicator :=
  { id := i.id
    symbol := p.symbol.getD i.symbol
    name := p.name.getD i.name
    description := p.description.getD i.description
    frequency := p.frequency.getD i.frequency
    units := p.units.getD i.units
    source := p.source.getD i.source
    lastUpdated := p.lastUpdated.getD i.lastUpdated }

/-- The MemStorage state: five maps with their id counters. -/
structure Store where
  users : Table User
  indicators : Table Indicator
  values : Table Value
  etlJobs : Table EtlJob
  analysisResults : Table AnalysisResult

/-- A store with all tables empty and every counter at 1, the state the
MemStorage constructor starts from before seeding sample rows. -/
def emptyStore : Store :=
  { users := Table.empty, indicators := Table.empty, values := Table.empty,
    etlJobs := Table.empty, analysisResults := Table.empty }

/-- Every table's keys are below its counter. -/
def Store.WF (s : Store) : Prop :=
  s.users.fresh ∧ s.indicators.fresh ∧ s.values.fresh ∧
    s.etlJobs.fresh ∧ s.analysisResults.fresh

-- MemStorage methods ---------------------------------------------------

def createUser (ins : InsertUser) (s : Store) : User × Store :=
  let r := Table.create s.users (fun id => { toInsertUser := ins, id := id })
  (r.1, { s with users := r.2 })

def createIndicator (ins : InsertIndicator) (s : Store) : Indicator × Store :=
  let r := Table.create s.indicators
    (fun id => { toInsertIndicator := ins, id := id })
  (r.1, { s with indicators := r.2 })

def getIndicatorBySymbol (symbol : String) (s : Store) : Option Indicator :=
  List.find? (fun i => i.symbol == symbol) (s.indicators.rows.map (fun p => p.2))

def updateIndicator (id : Nat) (p : IndicatorPatch) (s : Store) :
    Option Indicator × Store :=
  match Table.get s.indicators id with
  | none => (none, s)
  | some i =>
    let i' := i.merge p
    (some i', { s with indicators := Table.set s.indicators id i' })

def createValue (ins : InsertValue) (s : Store) : Value × Store :=
  let r := Table.create s.values (fun id => { toInsertValue := ins, id := id })
  (r.1, { s with values := r.2 })

/-- The JS comparator (a, b) => a.date.getTime() - b.date.getTime() used by
getValues. -/
def valuesCmp (a b : Value) : Int := a.date - b.date

/-- MemStorage.getValues: filter by indicator, optional inclusive date
bounds, then sort ascending by date. -/
def getValues (indicatorId : Nat) (startDate endDate : Option Int)
    (s : Store) : List Value :=
  let vs0 := (s.values.rows.map (fun p => p.2)).filter
    (fun v => v.indicatorId == indicatorId)
  let vs1 := match startDate with
    | some d => vs0.filter (fun v => decide (d ≤ v.date))
    | none => vs0
  let vs2 := match endDate with
    | some d => vs1.filter (fun v => decide (v.date ≤ d))
    | none => vs1
  jsSortBy (fun a b => decide (valuesCmp a b ≤ 0)) vs2

def createEtlJob (ins : InsertEtlJob) (s : Store) : EtlJob × Store :=
  let r := Table.create s.etlJobs (fun id => { toInsertEtlJob := ins, id := id })
  (r.1, { s with etlJobs := r.2 })

def updateEtlJob (id : Nat) (p : EtlJobPatch) (s : Store) :
    Option EtlJob × Store :=
  match Table.get s.etlJobs id with
  | none => (none, s)
  | some j =>
    let j' := j.merge p
    (some j', { s with etlJobs := Table.set s.etlJobs id j' })

/-- The JS comparator of getEtlJobs: descending by startTime when both are
present, 0 (no preference) as soon as either is null. -/
def jobsCmp (a b : EtlJob) : Int :=
  match a.startTime, b.startTime with
  | some ta, some tb => tb - ta
  | _, _ => 0

/-- MemStorage.getEtlJobs: sort with jobsCmp, then `limit ? slice : all`
(note a limit of 0 is falsy in JS and returns everything). -/
def getEtlJobs (limit : Option Nat) (s : Store) : List EtlJob :=
  let jobs := jsSortBy (fun a b => decide (jobsCmp a b ≤ 0))
    (s.etlJobs.rows.map (fun p => p.2))
  match limit with
  | some n => if n = 0 then jobs else jobs.take n
  | none => jobs

def createAnalysisResult (ins : InsertAnalysisResult) (s : Store) :
    AnalysisResult × Store :=
  let r := Table.create s.analysisResults
    (fun id => { toInsertAnalysisResult := ins, id := id })
  (r.1, { s with analysisResults := r.2 })

/-- Status of a stored job, as read back through getEtlJob. -/
def jobStatus (s : Store) (id : Nat) : Option String :=
  (Table.get s.etlJobs id).map (fun j => j.status)

-- Analytics process bridge ----------------------------------------------

/-- runPythonScript from the routers, as a function of the environment:
whether the script file exists, the exit code and the accumulated stdout
and stderr of the spawned process, and the platform JSON parser (JSON.parse,
whose failure value is its message string). The promise rejections of the
source become the .error branch, carrying the exact Error messages the
source constructs. -/
def runPythonScript (scriptPath : String) (scriptExists : Bool)
    (code : Int) (stdout stderr : String)
    (jsonDecode : String → Except String Json) : Except String Json :=
  if !scriptExists then
    .error ("Python script not found: " ++ scriptPath)
  else if code ≠ 0 then
    .error ("Python script exited with code " ++ toString code ++ ": " ++ stderr)
  else
    match jsonDecode stdout with
    | .ok j => .ok j
    | .error e => .error ("Failed to parse Python script output: " ++ e)

-- Analysis router --------------------------------------------------------

/-- Optional --flag value argument pair. -/
def optArg (flag : String) (v : Option String) : List String :=
  match v with
  | some x => [flag, x]
  | none => []

/-- Optional key of a JS object literal (a key built from an optional query
parameter). -/
def optField (k : String) (v : Option String) : List (String × Json) :=
  match v with
  | some x => [(k, Json.str x)]
  | none => []

/-- Argument list of the correlation route: the full comma separated series
string is passed through. -/
def correlationArgs (series : String) (sd ed : Option String) : List String :=
  ["correlation", "--series", series]
    ++ optArg "--start_date" sd ++ optArg "--end_date" ed

/-- AnalysisResult record stored by the correlation route. -/
def correlationInsert (series : String) (sd ed : Option String)
    (results : Json) (now : Int) : InsertAnalysisResult :=
  { type := "correlation", indicators := jsSplitComma series,
    parameters := Json.obj (optField "start_date" sd ++ optField "end_date" ed),
    results := results, createdAt := now }

/-- Argument list of the forecast route: only the first comma separated
series id is used. -/
def forecastArgs (series model periods : String) (sd ed : Option String) :
    List String :=
  let seriesId := (jsSplitComma series).headD ""
  ["forecast", "--series", seriesId, "--model", model, "--periods", periods]
    ++ optArg "--start_date" sd ++ optArg "--end_date" ed

/-- AnalysisResult record stored by the forecast route. -/
def forecastInsert (series model periods : String) (sd ed : Option String)
    (results : Json) (now : Int) : InsertAnalysisResult :=
  { type := "forecast", indicators := [(jsSplitComma series).headD ""],
    parameters := Json.obj
      (optField "start_date" sd ++ optField "end_date" ed
        ++ [("model", Json.str model), ("periods", Json.str periods)]),
    results := results, createdAt := now }

/-- Argument list of the moving-averages route: only the first comma
separated series id is used. -/
def movingAveragesArgs (series : String) (sd ed : Option String) :
    List String :=
  let seriesId := (jsSplitComma series).headD ""
  ["moving_averages", "--series", seriesId]
    ++ optArg "--start_date" sd ++ optArg "--end_date" ed

/-- Argument list of the volatility route: only the first comma separated
series id is used. -/
def volatilityArgs (series window : String) (sd ed : Option String) :
    List String :=
  let seriesId := (jsSplitComma series).headD ""
  ["volatility", "--series", seriesId, "--window", window]
    ++ optArg "--start_date" sd ++ optArg "--end_date" ed

/-- Outcome of a route handler: ok is HTTP 200 with a data payload,
reqError is the 400 validation response, svrError is the 500 response
produced by the catch block. -/
inductive RouteResult where
  | ok (data : Json)
  | reqError (msg : String)
  | svrError (msg : String)

def RouteResult.status : RouteResult → Nat
  | .ok _ => 200
  | .reqError _ => 400
  | .svrError _ => 500

/-- GET /api/analysis/correlation. The bridge argument abstracts
runPythonScript applied to analysis.py: it receives the built argv and
yields the settled promise. The series query parameter is none when absent;
an empty string is falsy and also rejected. The stored AnalysisResult is
created on every bridge success (correlation output carries no error-field
convention). -/
def correlationRoute (series sd ed : Option String)
    (bridge : List String → Except String Json) (now : Int) (s : Store) :
    RouteResult × Store :=
  match series with
  | none =>
    (.reqError "series parameter is required (comma-separated list of series IDs)", s)
  | some ser =>
    if ser = "" then
      (.reqError "series parameter is required (comma-separated list of series IDs)", s)
    else
      match bridge (correlationArgs ser sd ed) with
      | .error msg => (.svrError msg, s)
      | .ok correlationData =>
        let created := createAnalysisResult
          (correlationInsert ser sd ed correlationData now) s
        (.ok correlationData, created.2)

/-- GET /api/analysis/forecast. model and periods default to "arima" and
"10" when the query parameters are undefined. The AnalysisResult is stored
only when the parsed output carries no truthy error field; reading the
error field of a null output throws, which the catch turns into a 500
without storing anything. -/
def forecastRoute (series sd ed model periods : Option String)
    (bridge : List String → Except String Json) (now : Int) (s : Store) :
    RouteResult × Store :=
  match series with
  | none => (.reqError "series parameter is required", s)
  | some ser =>
    if ser = "" then (.reqError "series parameter is required", s)
    else
      let model' := model.getD "arima"
      let periods' := periods.getD "10"
      match bridge (forecastArgs ser model' periods' sd ed) with
      | .error msg => (.svrError msg, s)
      | .ok forecastData =>
        match jsField forecastData "error" with
        | .error msg => (.svrError msg, s)
        | .ok errField =>
          if optTruthy errField then (.ok forecastData, s)
          else
            let created := createAnalysisResult
              (forecastInsert ser model' periods' sd ed forecastData now) s
            (.ok forecastData, created.2)

/-- GET /api/analysis/moving-averages. The output is returned to the caller
but never persisted: the route contains no createAnalysisResult call. -/
def movingAveragesRoute (series sd ed : Option String)
    (bridge : List String → Except String Json) (s : Store) :
    RouteResult × Store :=
  match series with
  | none => (.reqError "series parameter is required", s)
  | some ser =>
    if ser = "" then (.reqError "series parameter is required", s)
    else
      match bridge (movingAveragesArgs ser sd ed) with
      | .error msg => (.svrError msg, s)
      | .ok movingAveragesData => (.ok movingAveragesData, s)

/-- GET /api/analysis/volatility. window defaults to "30". Like
moving-averages, the output is never persisted. -/
def volatilityRoute (series sd ed window : Option String)
    (bridge : List String → Except String Json) (s : Store) :
    RouteResult × Store :=
  match series with
  | none => (.reqError "series parameter is required", s)
  | some ser =>
    if ser = "" then (.reqError "series parameter is required", s)
    else
      let window' := window.getD "30"
      match bridge (volatilityArgs ser window' sd ed) with
      | .error msg => (.svrError msg, s)
      | .ok volatilityData => (.ok volatilityData, s)

-- ETL router --------------------------------------------------------------

/-- Argument list handed to etl_pipeline.py by runETLPipeline. -/
def etlArgs (seriesId : String) (sd ed : Option String) : List String :=
  [seriesId] ++ optArg "--start_date" sd ++ optArg "--end_date" ed

/-- The job record created by POST /api/etl/run before execution starts. -/
def runRouteCreate (seriesId : String) (sd ed : Option String) (now : Int)
    (s : Store) : EtlJob × Store :=
  createEtlJob
    { task := seriesId ++ " Dataset Update", status := "in_progress",
      startTime := some now, endTime := none, recordsProcessed := none,
      error := none,
      metadata := some (Json.obj
        ([("series_id", Json.str seriesId)]
          ++ optField "start_date" sd ++ optField "end_date" ed)) } s

/-- The expression result.data?.length || 0 of runETLPipeline. Reading
.data of a null result throws (caught by the pipeline's catch); an absent
or non-enumerable data field yields 0; arrays and strings yield their
length. (An object whose own length field is numeric is not modelled: the
schema types recordsProcessed as a number and no claim depends on it.) -/
def recordCount (result : Json) : Except String Int :=
  match jsField result "data" with
  | .error e => .error e
  | .ok none => .ok 0
  | .ok (some d) =>
    .ok (match d with
      | .arr xs => (xs.length : Int)
      | .str s => (s.length : Int)
      | _ => 0)

/-- The updateEtlJob patch of the pipeline's success branch. -/
def completePatch (now : Int) (recs : Int) (result : Json) : EtlJobPatch :=
  { status := some "completed", endTime := some (some now),
    recordsProcessed := some (some recs), metadata := some (some result) }

/-- The updateEtlJob patch of the pipeline's catch branch. -/
def failPatch (now : Int) (msg : String) : EtlJobPatch :=
  { status := some "failed", endTime := some (some now),
    error := some (some msg) }

/-- The indicator upsert at the end of a successful pipeline run: if the
output carries a truthy metadata field, refresh lastUpdated of an existing
indicator of that symbol, or create a new one with the documented
fallbacks and source fixed to FRED. -/
def etlIndicatorInsert (seriesId : String) (md : Json) (now : Int) :
    InsertIndicator :=
  { symbol := seriesId
    name := jsOr (Json.field md "name") (Json.str seriesId)
    description := jsOr (Json.field md "description") (Json.str "")
    frequency := jsOr (Json.field md "frequency") (Json.str "unknown")
    units := jsOr (Json.field md "units") (Json.str "")
    source := "FRED"
    lastUpdated := now }

def ingestIndicator (seriesId : String) (result : Json) (now : Int)
    (s : Store) : Store :=
  match Json.field result "metadata" with
  | some md =>
    if md.truthy then
      match getIndicatorBySymbol seriesId s with
      | some existing =>
        (updateIndicator existing.id { lastUpdated := some now } s).2
      | none => (createIndicator (etlIndicatorInsert seriesId md now) s).2
    else s
  | none => s

/-- The try block of runETLPipeline: invoke the bridge on the built argv,
compute the record count (which can throw on a null result), write the
completed terminal update, then upsert the indicator. A thrown error
carries the store as mutated so far, which the catch receives. -/
def etlAttempt (jobId : Nat) (seriesId : String) (sd ed : Option String)
    (bridge : List String → Except String Json) (now : Int) (s : Store) :
    Except (String × Store) Store :=
  match bridge (etlArgs seriesId sd ed) with
  | .error msg => .error (msg, s)
  | .ok result =>
    match recordCount result with
    | .error msg => .error (msg, s)
    | .ok recs =>
      let s1 := (updateEtlJob jobId (completePatch now recs result) s).2
      .ok (ingestIndicator seriesId result now s1)

/-- runETLPipeline: the try block, with the catch converting any thrown
error into the failed terminal update on the store state at the throw
point. -/
def runETLPipeline (jobId : Nat) (seriesId : String) (sd ed : Option String)
    (bridge : List String → Except String Json) (now : Int) (s : Store) :
    Store :=
  match etlAttempt jobId seriesId sd ed bridge now s with
  | .ok s' => s'
  | .error es => (updateEtlJob jobId (failPatch now es.1) es.2).2

/-- Request body of POST /api/etl/schedule after the zod structural checks
(task, scheduledTime and series_id are strings; the date fields are
optional strings). -/
structure ScheduleBody where
  task : String
  scheduledTime : String
  series_id : String
  start_date : Option String := none
  end_date : Option String := none

/-- The job record created by a valid schedule request: status scheduled,
startTime the parsed scheduledTime. -/
def scheduleInsert (body : ScheduleBody) (t : Int) : InsertEtlJob :=
  { task := body.task, status := "scheduled", startTime := some t,
    endTime := none, recordsProcessed := none, error := none,
    metadata := some (Json.obj
      ([("series_id", Json.str body.series_id)]
        ++ optField "start_date" body.start_date
        ++ optField "end_date" body.end_date)) }

/-- POST /api/etl/schedule. dateParse abstracts the platform Date parser
used both by the zod refine check (Date.parse) and by the Date constructor:
none models an unparsable timestamp (NaN). On parse failure the zod error
reaches the catch and the route answers 400 without touching the store. -/
def scheduleRoute (body : ScheduleBody) (dateParse : String → Option Int)
    (s : Store) : RouteResult × Store :=
  match dateParse body.scheduledTime with
  | none => (.reqError "Invalid date format for scheduledTime", s)
  | some t =>
    let created := createEtlJob (scheduleInsert body t) s
    (.ok (Json.obj [("job_id", Json.num (created.1.id : Int))]), created.2)

-- Seeded constructor and concrete stores ---------------------------------

/-- The MemStorage constructor: from the empty state, seed three sample
indicators and five sample ETL jobs through the ordinary create methods.
The constructor's Date expressions are parameters: now is new Date() /
Date.now(), fourPM and fivePM are today's 16:00 and 17:00. -/
def memStorageInit (now fourPM fivePM : Int) : Store :=
  let s := emptyStore
  let s := (createIndicator
    { symbol := "GDP", name := Json.str "Gross Domestic Product",
      description := Json.str "Quarterly measure of US economic output",
      frequency := Json.str "quarterly", units := Json.str "billions_usd",
      source := "FRED", lastUpdated := now } s).2
  let s := (createIndicator
    { symbol := "UNRATE", name := Json.str "Unemployment Rate",
      description := Json.str "Monthly unemployment rate in the US",
      frequency := Json.str "monthly", units := Json.str "percent",
      source := "FRED", lastUpdated := now } s).2
  let s := (createIndicator
    { symbol := "CPIAUCSL", name := Json.str "Consumer Price Index",
      description := Json.str "Monthly consumer price index for all urban consumers",
      frequency := Json.str "monthly", units := Json.str "index",
      source := "FRED", lastUpdated := now } s).2
  let s := (createEtlJob
    { task := "GDP Dataset Update", status := "completed",
      startTime := some (now - 35000), endTime := some now,
      recordsProcessed := some 125, error := none, metadata := none } s).2
  let s := (createEtlJob
    { task := "CPI Dataset Update", status := "completed",
      startTime := some (now - 28000), endTime := some now,
      recordsProcessed := some 87, error := none, metadata := none } s).2
  let s := (createEtlJob
    { task := "Unemployment Data", status := "in_progress",
      startTime := some now, endTime := none,
      recordsProcessed := none, error := none, metadata := none } s).2
  let s := (createEtlJob
    { task := "S&P 500 Daily Update", status := "scheduled",
      startTime := some fourPM, endTime := none,
      recordsProcessed := none, error := none, metadata := none } s).2
  let s := (createEtlJob
    { task := "Treasury Yield Update", status := "scheduled",
      startTime := some fivePM, endTime := none,
      recordsProcessed := none, error := none, metadata := none } s).2
  s

/-- A store holding a job with null startTime inserted before a job with a
present startTime; the EtlJob schema declares startTime nullable and the
getEtlJobs comparator explicitly guards both operands for null. -/
def nullStartStore : Store :=
  let s := (createEtlJob
    { task := "A", status := "in_progress", startTime := none,
      endTime := none, recordsProcessed := none, error := none,
      metadata := none } emptyStore).2
  (createEtlJob
    { task := "B", status := "scheduled", startTime := some 100,
      endTime := none, recordsProcessed := none, error := none,
      metadata := none } s).2

-- Batch create helpers (sequences of create calls on one entity kind) ----

def createUserSeq (inss : List InsertUser) (s : Store) : List User × Store :=
  match inss with
  | [] => ([], s)
  | ins :: rest =>
    let r := createUser ins s
    let rs := createUserSeq rest r.2
    (r.1 :: rs.1, rs.2)

def createIndicatorSeq (inss : List InsertIndicator) (s : Store) :
    List Indicator × Store :=
  match inss with
  | [] => ([], s)
  | ins :: rest =>
    let r := createIndicator ins s
    let rs := createIndicatorSeq rest r.2
    (r.1 :: rs.1, rs.2)

def createValueSeq (inss : List InsertValue) (s : Store) :
    List Value × Store :=
  match inss with
  | [] => ([], s)
  | ins :: rest =>
    let r := createValue ins s
    let rs := createValueSeq rest r.2
    (r.1 :: rs.1, rs.2)

def createEtlJobSeq (inss : List InsertEtlJob) (s : Store) :
    List EtlJob × Store :=
  match inss with
  | [] => ([], s)
  | ins :: rest =>
    let r := createEtlJob ins s
    let rs := createEtlJobSeq rest r.2
    (r.1 :: rs.1, rs.2)

def createAnalysisResultSeq (inss : List InsertAnalysisResult) (s : Store) :
    List AnalysisResult × Store :=
  match inss with
  | [] => ([], s)
  | ins :: rest =>
    let r := createAnalysisResult ins s
    let rs := createAnalysisResultSeq rest r.2
    (r.1 :: rs.1, rs.2)

/-- A sample insert record used to instantiate universally quantified
theorems at a concrete input. -/
def sampleJobInsert : InsertEtlJob :=
  { task := "T", status := "scheduled", startTime := none, endTime := none,
    recordsProcessed := none, error := none, metadata := none }

/-- Concrete schedule request bodies used by witnesses. -/
def badTimeBody : ScheduleBody :=
  { task := "X", scheduledTime := "bad", series_id := "GDP" }

def goodTimeBody : ScheduleBody :=
  { task := "X", scheduledTime := "2024-01-01", series_id := "GDP" }

/-- A store with two ETL jobs whose startTime is present, used to
instantiate the ordering theorem at a concrete input. -/
def twoJobsStore : Store :=
  let s := (createEtlJob
    { task := "J1", status := "completed", startTime := some 50,
      endTime := none, recordsProcessed := none, error := none,
      metadata := none } emptyStore).2
  (createEtlJob
    { task := "J2", status := "completed", startTime := some 200,
      endTime := none, recordsProcessed := none, error := none,
      metadata := none } s).2

-- Lemmas: association rows ------------------------------------------------

theorem getRows_setRows_self (k : Nat) (v : α) (rows : List (Nat × α)) :
    getRows k (setRows k v rows) = some v := by
  induction rows with
  | nil => simp [setRows, getRows]
  | cons p rest ih =>
    obtain ⟨k', v'⟩ := p
    by_cases h : k' = k
    · simp [setRows, getRows, h]
    · simp [setRows, getRows, h, ih]

theorem getRows_setRows_ne (k k' : Nat) (v : α) (rows : List (Nat × α))
    (h : k' ≠ k) : getRows k' (setRows k v rows) = getRows k' rows := by
  have h' : k ≠ k' := fun he => h he.symm
  induction rows with
  | nil => simp [setRows, getRows, h']
  | cons p rest ih =>
    obtain ⟨k0, v0⟩ := p
    by_cases h0 : k0 = k
    · subst h0
      simp [setRows, getRows, h']
    · simp only [setRows, if_neg h0, getRows]
      by_cases h1 : k0 = k'
      · simp [h1]
      · simp [h1, ih]

theorem setRows_of_not_mem (k : Nat) (v : α) (rows : List (Nat × α))
    (h : ∀ kv ∈ rows, kv.1 ≠ k) : setRows k v rows = rows ++ [(k, v)] := by
  induction rows with
  | nil => simp [setRows]
  | cons p rest ih =>
    obtain ⟨k0, v0⟩ := p
    have hk0 : k0 ≠ k := h (k0, v0) (List.mem_cons_self _ _)
    simp only [setRows, if_neg hk0, List.cons_append, List.cons.injEq, true_and]
    exact ih (fun kv hkv => h kv (List.mem_cons_of_mem _ hkv))

theorem length_setRows_of_mem (k : Nat) (v : α) (rows : List (Nat × α))
    (h : getRows k rows ≠ none) :
    (setRows k v rows).length = rows.length := by
  induction rows with
  | nil => simp [getRows] at h
  | cons p rest ih =>
    obtain ⟨k0, v0⟩ := p
    by_cases h0 : k0 = k
    · simp [setRows, h0]
    · simp only [getRows, if_neg h0] at h
      simp [setRows, if_neg h0, ih h]

theorem fresh_not_mem {t : Table α} (h : t.fresh) :
    ∀ kv ∈ t.rows, kv.1 ≠ t.currentId := by
  intro kv hkv
  exact Nat.ne_of_lt (h kv hkv)

/-- Table.create on a fresh table appends the new row at the end. -/
theorem create_rows_of_fresh (t : Table α) (mk : Nat → α) (h : t.fresh) :
    (Table.create t mk).2.rows = t.rows ++ [(t.currentId, mk t.currentId)] := by
  simp [Table.create, setRows_of_not_mem _ _ _ (fresh_not_mem h)]

theorem fresh_create (t : Table α) (mk : Nat → α) (h : t.fresh) :
    (Table.create t mk).2.fresh := by
  intro kv hkv
  rw [create_rows_of_fresh t mk h] at hkv
  have hcid : (Table.create t mk).2.currentId = t.currentId + 1 := rfl
  rw [hcid]
  rcases List.mem_append.mp hkv with h1 | h1
  · exact Nat.lt_succ_of_lt (h kv h1)
  · have : kv = (t.currentId, mk t.currentId) := by simpa using h1
    simp [this]

theorem mem_setRows (k : Nat) (v : α) (rows : List (Nat × α)) (kv : Nat × α)
    (h : kv ∈ setRows k v rows) : kv = (k, v) ∨ kv ∈ rows := by
  induction rows with
  | nil => simpa [setRows] using h
  | cons p rest ih =>
    obtain ⟨k0, v0⟩ := p
    by_cases h0 : k0 = k
    · simp only [setRows, if_pos h0] at h
      rcases List.mem_cons.mp h with h1 | h1
      · exact Or.inl h1
      · exact Or.inr (List.mem_cons_of_mem _ h1)
    · simp only [setRows, if_neg h0] at h
      rcases List.mem_cons.mp h with h1 | h1
      · exact Or.inr (h1 ▸ List.mem_cons_self _ _)
      · rcases ih h1 with h2 | h2
        · exact Or.inl h2
        · exact Or.inr (List.mem_cons_of_mem _ h2)

theorem fresh_set_existing (t : Table α) (k : Nat) (v : α) (h : t.fresh)
    (hk : k < t.currentId) : (Table.set t k v).fresh := by
  intro kv hkv
  have hkv' : kv ∈ setRows k v t.rows := hkv
  rcases mem_setRows k v t.rows kv hkv' with h1 | h1
  · have : kv.1 = k := by simp [h1]
    simpa [Table.set, this] using hk
  · exact h kv h1

theorem emptyStore_wf : Store.WF emptyStore := by
  refine ⟨?_, ?_, ?_, ?_, ?_⟩ <;> intro kv hkv <;> simp [emptyStore, Table.empty] at hkv

-- Lemmas: stable sort -----------------------------------------------------

theorem jsInsertBy_perm (r : α → α → Bool) (x : α) (l : List α) :
    List.Perm (jsInsertBy r x l) (x :: l) := by
  induction l with
  | nil => simp [jsInsertBy]
  | cons y ys ih =>
    simp only [jsInsertBy]
    by_cases h : r x y = true
    · simp [h]
    · rw [if_neg h]
      exact (ih.cons y).trans (List.Perm.swap x y ys)

theorem jsSortBy_perm (r : α → α → Bool) (l : List α) :
    List.Perm (jsSortBy r l) l := by
  induction l with
  | nil => simp [jsSortBy]
  | cons x xs ih =>
    exact (jsInsertBy_perm r x (jsSortBy r xs)).trans (ih.cons x)

theorem jsInsertBy_pairwise (r : α → α → Bool) (p : α → Prop)
    (htr : ∀ a b c, p a → p b → p c → r a b = true → r b c = true → r a c = true)
    (hto : ∀ a b, p a → p b → r a b = true ∨ r b a = true)
    (x : α) (l : List α) (hx : p x) (hl : ∀ y ∈ l, p y)
    (hs : List.Pairwise (fun a b => r a b = true) l) :
    List.Pairwise (fun a b => r a b = true) (jsInsertBy r x l) := by
  induction l with
  | nil => simp [jsInsertBy]
  | cons y ys ih =>
    have hy : p y := hl y (List.mem_cons_self _ _)
    have hys : ∀ z ∈ ys, p z := fun z hz => hl z (List.mem_cons_of_mem _ hz)
    rcases List.pairwise_cons.mp hs with ⟨hyz, hrest⟩
    simp only [jsInsertBy]
    by_cases hxy : r x y = true
    · rw [if_pos hxy]
      refine List.pairwise_cons.mpr ⟨?_, hs⟩
      intro z hz
      rcases List.mem_cons.mp hz with h1 | h1
      · exact h1 ▸ hxy
      · exact htr x y z hx hy (hys z h1) hxy (hyz z h1)
    · rw [if_neg hxy]
      refine List.pairwise_cons.mpr ⟨?_, ih hys hrest⟩
      intro z hz
      have hz' := (jsInsertBy_perm r x ys).mem_iff.mp hz
      rcases List.mem_cons.mp hz' with h1 | h1
      · subst h1
        rcases hto z y hx hy with h2 | h2
        · exact absurd h2 hxy
        · exact h2
      · exact hyz z h1

theorem jsSortBy_pairwise (r : α → α → Bool) (p : α → Prop)
    (htr : ∀ a b c, p a → p b → p c → r a b = true → r b c = true → r a c = true)
    (hto : ∀ a b, p a → p b → r a b = true ∨ r b a = true)
    (l : List α) (hl : ∀ y ∈ l, p y) :
    List.Pairwise (fun a b => r a b = true) (jsSortBy r l) := by
  induction l with
  | nil => simp [jsSortBy]
  | cons x xs ih =>
    have hx : p x := hl x (List.mem_cons_self _ _)
    have hxs : ∀ y ∈ xs, p y := fun y hy => hl y (List.mem_cons_of_mem _ hy)
    refine jsInsertBy_pairwise r p htr hto x (jsSortBy r xs) hx ?_ (ih hxs)
    intro y hy
    exact hxs y ((jsSortBy_perm r xs).mem_iff.mp hy)

-- Lemmas: store operations ------------------------------------------------

theorem createEtlJob_get (ins : InsertEtlJob) (s : Store) :
    Table.get (createEtlJob ins s).2.etlJobs (createEtlJob ins s).1.id
      = some (createEtlJob ins s).1 :=
  getRows_setRows_self _ _ _

theorem updateEtlJob_get_self (id : Nat) (p : EtlJobPatch) (s : Store)
    (j : EtlJob) (h : Table.get s.etlJobs id = some j) :
    Table.get (updateEtlJob id p s).2.etlJobs id = some (j.merge p) := by
  unfold updateEtlJob
  rw [h]
  exact getRows_setRows_self _ _ _

theorem jobStatus_update_self (id : Nat) (p : EtlJobPatch) (s : Store)
    (j : EtlJob) (h : Table.get s.etlJobs id = some j) :
    jobStatus (updateEtlJob id p s).2 id = some (p.status.getD j.status) := by
  unfold jobStatus
  rw [updateEtlJob_get_self id p s j h]
  rfl

theorem updateEtlJob_frame (id : Nat) (p : EtlJobPatch) (s : Store) :
    (updateEtlJob id p s).2.indicators = s.indicators ∧
      (updateEtlJob id p s).2.analysisResults = s.analysisResults ∧
      (updateEtlJob id p s).2.values = s.values ∧
      (updateEtlJob id p s).2.users = s.users := by
  unfold updateEtlJob
  split <;> exact ⟨rfl, rfl, rfl, rfl⟩

theorem updateIndicator_frame (id : Nat) (p : IndicatorPatch) (s : Store) :
    (updateIndicator id p s).2.etlJobs = s.etlJobs ∧
      (updateIndicator id p s).2.analysisResults = s.analysisResults ∧
      (updateIndicator id p s).2.values = s.values := by
  unfold updateIndicator
  split <;> exact ⟨rfl, rfl, rfl⟩

theorem ingestIndicator_frame (seriesId : String) (result : Json) (now : Int)
    (s : Store) :
    (ingestIndicator seriesId result now s).etlJobs = s.etlJobs ∧
      (ingestIndicator seriesId result now s).analysisResults
        = s.analysisResults ∧
      (ingestIndicator seriesId result now s).values = s.values := by
  unfold ingestIndicator
  split
  · split
    · split
      · exact updateIndicator_frame _ _ _
      · exact ⟨rfl, rfl, rfl⟩
    · exact ⟨rfl, rfl, rfl⟩
  · exact ⟨rfl, rfl, rfl⟩

-- Lemmas: id sequences ----------------------------------------------------

/-- The consecutive ids c, c+1, ..., c+n-1. -/
def idRange (c n : Nat) : List Nat :=
  match n with
  | 0 => []
  | Nat.succ m => c :: idRange (c + 1) m

theorem le_of_mem_idRange (c n x : Nat) (h : x ∈ idRange c n) : c ≤ x := by
  induction n generalizing c with
  | zero => simp [idRange] at h
  | succ m ih =>
    rcases List.mem_cons.mp h with h1 | h1
    · exact Nat.le_of_eq h1.symm
    · exact Nat.le_trans (Nat.le_succ c) (ih (c + 1) h1)

theorem idRange_pairwise_lt (c n : Nat) :
    List.Pairwise (fun a b => a < b) (idRange c n) := by
  induction n generalizing c with
  | zero => simp [idRange]
  | succ m ih =>
    refine List.pairwise_cons.mpr ⟨?_, ih (c + 1)⟩
    intro x hx
    exact Nat.lt_of_succ_le (le_of_mem_idRange (c + 1) m x hx)

theorem createEtlJobSeq_ids (inss : List InsertEtlJob) (s : Store) :
    (createEtlJobSeq inss s).1.map (fun j => j.id)
        = idRange s.etlJobs.currentId inss.length ∧
      (createEtlJobSeq inss s).2.etlJobs.currentId
        = s.etlJobs.currentId + inss.length := by
  induction inss generalizing s with
  | nil => simp [createEtlJobSeq, idRange]
  | cons ins rest ih =>
    rcases ih (createEtlJob ins s).2 with ⟨ha, hb⟩
    have hc : (createEtlJob ins s).2.etlJobs.currentId
        = s.etlJobs.currentId + 1 := rfl
    refine ⟨?_, ?_⟩
    · simp only [createEtlJobSeq, List.map_cons, List.length_cons, idRange]
      rw [ha, hc]
      rfl
    · simp only [createEtlJobSeq, List.length_cons]
      rw [hb, hc]
      omega

theorem createUserSeq_ids (inss : List InsertUser) (s : Store) :
    (createUserSeq inss s).1.map (fun u => u.id)
        = idRange s.users.currentId inss.length ∧
      (createUserSeq inss s).2.users.currentId
        = s.users.currentId + inss.length := by
  induction inss generalizing s with
  | nil => simp [createUserSeq, idRange]
  | cons ins rest ih =>
    rcases ih (createUser ins s).2 with ⟨ha, hb⟩
    have hc : (createUser ins s).2.users.currentId
        = s.users.currentId + 1 := rfl
    refine ⟨?_, ?_⟩
    · simp only [createUserSeq, List.map_cons, List.length_cons, idRange]
      rw [ha, hc]
      rfl
    · simp only [createUserSeq, List.length_cons]
      rw [hb, hc]
      omega

theorem createIndicatorSeq_ids (inss : List InsertIndicator) (s : Store) :
    (createIndicatorSeq inss s).1.map (fun i => i.id)
        = idRange s.indicators.currentId inss.length ∧
      (createIndicatorSeq inss s).2.indicators.currentId
        = s.indicators.currentId + inss.length := by
  induction inss generalizing s with
  | nil => simp [createIndicatorSeq, idRange]
  | cons ins rest ih =>
    rcases ih (createIndicator ins s).2 with ⟨ha, hb⟩
    have hc : (createIndicator ins s).2.indicators.currentId
        = s.indicators.currentId + 1 := rfl
    refine ⟨?_, ?_⟩
    · simp only [createIndicatorSeq, List.map_cons, List.length_cons, idRange]
      rw [ha, hc]
      rfl
    · simp only [createIndicatorSeq, List.length_cons]
      rw [hb, hc]
      omega

theorem createValueSeq_ids (inss : List InsertValue) (s : Store) :
    (createValueSeq inss s).1.map (fun v => v.id)
        = idRange s.values.currentId inss.length ∧
      (createValueSeq inss s).2.values.currentId
        = s.values.currentId + inss.length := by
  induction inss generalizing s with
  | nil => simp [createValueSeq, idRange]
  | cons ins rest ih =>
    rcases ih (createValue ins s).2 with ⟨ha, hb⟩
    have hc : (createValue ins s).2.values.currentId
        = s.values.currentId + 1 := rfl
    refine ⟨?_, ?_⟩
    · simp only [createValueSeq, List.map_cons, List.length_cons, idRange]
      rw [ha, hc]
      rfl
    · simp only [createValueSeq, List.length_cons]
      rw [hb, hc]
      omega

theorem createAnalysisResultSeq_ids (inss : List InsertAnalysisResult)
    (s : Store) :
    (createAnalysisResultSeq inss s).1.map (fun r => r.id)
        = idRange s.analysisResults.currentId inss.length ∧
      (createAnalysisResultSeq inss s).2.analysisResults.currentId
        = s.analysisResults.currentId + inss.length := by
  induction inss generalizing s with
  | nil => simp [createAnalysisResultSeq, idRange]
  | cons ins rest ih =>
    rcases ih (createAnalysisResult ins s).2 with ⟨ha, hb⟩
    have hc : (createAnalysisResult ins s).2.analysisResults.currentId
        = s.analysisResults.currentId + 1 := rfl
    refine ⟨?_, ?_⟩
    · simp only [createAnalysisResultSeq, List.map_cons, List.length_cons,
        idRange]
      rw [ha, hc]
      rfl
    · simp only [createAnalysisResultSeq, List.length_cons]
      rw [hb, hc]
      omega

-- Lemmas: comma splitting -------------------------------------------------

theorem splitChars_no_sep (sep : Char) (cs : List Char) :
    ∀ (rest acc : List Char), ¬ sep ∈ cs →
      splitChars sep (cs ++ sep :: rest) acc
        = (acc.reverse ++ cs) :: splitChars sep rest [] := by
  induction cs with
  | nil => intro rest acc _; simp [splitChars]
  | cons c cs ih =>
    intro rest acc h
    have hc : ¬ c = sep := fun he => h (by simp [he])
    simp only [List.cons_append, splitChars, if_neg hc]
    rw [List.append_eq, ih rest (c :: acc) (fun hm => h (List.mem_cons_of_mem _ hm))]
    simp

theorem jsSplitComma_head_append (s1 s2 : String) (h : ¬ ',' ∈ s1.toList) :
    (jsSplitComma (s1 ++ "," ++ s2)).headD "" = s1 := by
  have hdata : (s1 ++ "," ++ s2).toList = s1.toList ++ ',' :: s2.toList := by
    show (s1 ++ "," ++ s2).data = s1.data ++ ',' :: s2.data
    rw [String.data_append, String.data_append, List.append_assoc]
    rfl
  unfold jsSplitComma
  rw [hdata, splitChars_no_sep ',' s1.toList s2.toList [] h]
  simp only [List.map_cons, List.headD_cons, List.nil_append]
  show String.mk s1.data = s1
  rfl

-- Claim theorems ----------------------------------------------------------

/-- Claim C5: a schedule request whose scheduledTime does not parse yields
the 400 validation response and leaves the store untouched; a request with
a parsable scheduledTime creates exactly one EtlJob, in status scheduled,
with startTime equal to the parsed scheduled time, touching no other
table. -/
theorem c5_schedule_validation (body : ScheduleBody)
    (dateParse : String → Option Int) (s : Store) (hwf : Store.WF s) :
    match dateParse body.scheduledTime with
    | none =>
      scheduleRoute body dateParse s
        = (.reqError "Invalid date format for scheduledTime", s)
    | some t =>
      (scheduleRoute body dateParse s).2.etlJobs.rows
          = s.etlJobs.rows
            ++ [(s.etlJobs.currentId,
                 { toInsertEtlJob := scheduleInsert body t,
                   id := s.etlJobs.currentId })]
        ∧ (scheduleInsert body t).status = "scheduled"
        ∧ (scheduleInsert body t).startTime = some t
        ∧ (scheduleRoute body dateParse s).2.indicators = s.indicators
        ∧ (scheduleRoute body dateParse s).2.analysisResults
            = s.analysisResults
        ∧ (scheduleRoute body dateParse s).2.values = s.values
        ∧ (scheduleRoute body dateParse s).1
            = .ok (Json.obj
                [("job_id", Json.num (s.etlJobs.currentId : Int))]) := by
  cases hdp : dateParse body.scheduledTime with
  | none => simp only [scheduleRoute, hdp]
  | some t =>
    simp only [scheduleRoute, hdp]
    refine ⟨?_, rfl, rfl, rfl, rfl, rfl, rfl⟩
    exact create_rows_of_fresh s.etlJobs _ hwf.2.2.2.1

/-- Witness for C5, at a concrete parser and store: both the rejecting and
the accepting branch, evaluated. -/
theorem c5_schedule_validation_witness :
    scheduleRoute badTimeBody (fun _ => none) emptyStore
      = (.reqError "Invalid date format for scheduledTime", emptyStore) ∧
    (scheduleRoute goodTimeBody (fun _ => some 5)
          emptyStore).2.etlJobs.rows
      = emptyStore.etlJobs.rows
        ++ [(emptyStore.etlJobs.currentId,
             { toInsertEtlJob := scheduleInsert goodTimeBody 5,
               id := emptyStore.etlJobs.currentId })] := by
  constructor
  · exact c5_schedule_validation badTimeBody (fun _ => none) emptyStore
      emptyStore_wf
  · exact (c5_schedule_validation goodTimeBody (fun _ => some 5) emptyStore
      emptyStore_wf).1

/-- Claim C3: on each entity kind, a sequence of create calls returns the
consecutive identifiers starting at the kind's counter — strictly
increasing, starting at 1 on a fresh store (the constructor's own seeds
take ids 1..3 and 1..5) — never reusing an id already present; each create
stores the record under the returned id and returns the stored record
(the insert payload plus the id). Node runs the MemStorage method bodies
atomically, so concurrent submissions interleave only at the granularity of
whole create calls, which this sequence model captures. -/
theorem c3_create_ids_strictly_increasing
    (us : List InsertUser) (inds : List InsertIndicator)
    (vas : List InsertValue) (jbs : List InsertEtlJob)
    (ars : List InsertAnalysisResult) (s : Store) (hwf : Store.WF s) :
    ((createUserSeq us s).1.map (fun u => u.id)
        = idRange s.users.currentId us.length
      ∧ List.Pairwise (fun a b => a < b)
          ((createUserSeq us s).1.map (fun u => u.id)))
    ∧ ((createIndicatorSeq inds s).1.map (fun i => i.id)
        = idRange s.indicators.currentId inds.length
      ∧ List.Pairwise (fun a b => a < b)
          ((createIndicatorSeq inds s).1.map (fun i => i.id)))
    ∧ ((createValueSeq vas s).1.map (fun v => v.id)
        = idRange s.values.currentId vas.length
      ∧ List.Pairwise (fun a b => a < b)
          ((createValueSeq vas s).1.map (fun v => v.id)))
    ∧ ((createEtlJobSeq jbs s).1.map (fun j => j.id)
        = idRange s.etlJobs.currentId jbs.length
      ∧ List.Pairwise (fun a b => a < b)
          ((createEtlJobSeq jbs s).1.map (fun j => j.id)))
    ∧ ((createAnalysisResultSeq ars s).1.map (fun r => r.id)
        = idRange s.analysisResults.currentId ars.length
      ∧ List.Pairwise (fun a b => a < b)
          ((createAnalysisResultSeq ars s).1.map (fun r => r.id)))
    ∧ (createEtlJobSeq jbs emptyStore).1.map (fun j => j.id)
        = idRange 1 jbs.length
    ∧ (memStorageInit 0 0 0).indicators.rows.map (fun p => p.1) = [1, 2, 3]
    ∧ (memStorageInit 0 0 0).etlJobs.rows.map (fun p => p.1)
        = [1, 2, 3, 4, 5]
    ∧ (∀ ins st, (createEtlJob ins st).1.id = st.etlJobs.currentId
        ∧ Table.get (createEtlJob ins st).2.etlJobs
            (createEtlJob ins st).1.id = some (createEtlJob ins st).1
        ∧ (createEtlJob ins st).1.toInsertEtlJob = ins)
    ∧ (∀ i ∈ (createEtlJobSeq jbs s).1.map (fun j => j.id),
        ∀ kv ∈ s.etlJobs.rows, kv.1 ≠ i) := by
  refine ⟨⟨(createUserSeq_ids us s).1, ?_⟩,
    ⟨(createIndicatorSeq_ids inds s).1, ?_⟩,
    ⟨(createValueSeq_ids vas s).1, ?_⟩,
    ⟨(createEtlJobSeq_ids jbs s).1, ?_⟩,
    ⟨(createAnalysisResultSeq_ids ars s).1, ?_⟩,
    (createEtlJobSeq_ids jbs emptyStore).1, rfl, rfl,
    fun ins st => ⟨rfl, createEtlJob_get ins st, rfl⟩, ?_⟩
  · rw [(createUserSeq_ids us s).1]
    exact idRange_pairwise_lt _ _
  · rw [(createIndicatorSeq_ids inds s).1]
    exact idRange_pairwise_lt _ _
  · rw [(createValueSeq_ids vas s).1]
    exact idRange_pairwise_lt _ _
  · rw [(createEtlJobSeq_ids jbs s).1]
    exact idRange_pairwise_lt _ _
  · rw [(createAnalysisResultSeq_ids ars s).1]
    exact idRange_pairwise_lt _ _
  · intro i hi kv hkv
    rw [(createEtlJobSeq_ids jbs s).1] at hi
    have h1 : s.etlJobs.currentId ≤ i := le_of_mem_idRange _ _ _ hi
    have h2 : kv.1 < s.etlJobs.currentId := hwf.2.2.2.1 kv hkv
    omega

/-- Witness for C3: the id sequence of two creates on the fresh store is
[1, 2], and the seeded constructor's indicator keys are [1, 2, 3]. -/
theorem c3_create_ids_witness :
    (createEtlJobSeq [sampleJobInsert, sampleJobInsert] emptyStore).1.map
        (fun j => j.id) = [1, 2] ∧
    (memStorageInit 0 0 0).indicators.rows.map (fun p => p.1) = [1, 2, 3] := by
  have h := c3_create_ids_strictly_increasing [] [] []
    [sampleJobInsert, sampleJobInsert] [] emptyStore emptyStore_wf
  exact ⟨h.2.2.2.2.2.1, h.2.2.2.2.2.2.1⟩

/-- Claim C6: getValues returns exactly the stored values of the requested
indicator that lie inside the optional inclusive date bounds (a multiset
equality with the combined filter), and the returned sequence is
non-decreasing by date. -/
theorem c6_getValues_filtered_and_sorted (indicatorId : Nat)
    (sd ed : Option Int) (s : Store) :
    List.Pairwise (fun a b => a.date ≤ b.date)
        (getValues indicatorId sd ed s)
      ∧ List.Perm (getValues indicatorId sd ed s)
        ((s.values.rows.map (fun p => p.2)).filter
          (fun v => v.indicatorId == indicatorId
            && (match sd with
                | some d => decide (d ≤ v.date)
                | none => true)
            && (match ed with
                | some d => decide (v.date ≤ d)
                | none => true))) := by
  have htr : ∀ a b c : Value, True → True → True →
      decide (valuesCmp a b ≤ 0) = true → decide (valuesCmp b c ≤ 0) = true →
      decide (valuesCmp a c ≤ 0) = true := by
    intro a b c _ _ _ h1 h2
    simp only [valuesCmp, decide_eq_true_eq] at h1 h2 ⊢
    omega
  have hto : ∀ a b : Value, True → True →
      decide (valuesCmp a b ≤ 0) = true ∨
        decide (valuesCmp b a ≤ 0) = true := by
    intro a b _ _
    simp only [valuesCmp, decide_eq_true_eq]
    omega
  constructor
  · have hp : List.Pairwise
        (fun a b : Value => decide (valuesCmp a b ≤ 0) = true)
        (getValues indicatorId sd ed s) := by
      simp only [getValues]
      cases sd <;> cases ed <;>
        exact jsSortBy_pairwise _ _ htr hto _ (fun y _ => trivial)
    refine hp.imp ?_
    intro a b h
    simp only [valuesCmp, decide_eq_true_eq] at h
    omega
  · simp only [getValues]
    cases sd <;> cases ed <;>
      refine (jsSortBy_perm _ _).trans ?_ <;>
      simp only [List.filter_filter] <;>
      refine List.Perm.of_eq (List.filter_congr ?_) <;>
      intro a _ <;>
      simp [Bool.and_comm, Bool.and_assoc, Bool.and_left_comm]

/-- runETLPipeline unfolded by cases on the bridge outcome and the record
count. -/
theorem runETLPipeline_eq (jobId : Nat) (seriesId : String)
    (sd ed : Option String) (bridge : List String → Except String Json)
    (now : Int) (s : Store) :
    runETLPipeline jobId seriesId sd ed bridge now s
      = match bridge (etlArgs seriesId sd ed) with
        | .error msg => (updateEtlJob jobId (failPatch now msg) s).2
        | .ok result =>
          match recordCount result with
          | .error msg => (updateEtlJob jobId (failPatch now msg) s).2
          | .ok recs =>
            ingestIndicator seriesId result now
              (updateEtlJob jobId (completePatch now recs result) s).2 := by
  cases hbr : bridge (etlArgs seriesId sd ed) with
  | error msg => simp only [runETLPipeline, etlAttempt, hbr]
  | ok result =>
    cases hrc : recordCount result with
    | error m => simp only [runETLPipeline, etlAttempt, hbr, hrc]
    | ok recs => simp only [runETLPipeline, etlAttempt, hbr, hrc]

/-- Claim C1: a submitted job is observed in_progress right after creation;
the pipeline then writes exactly one terminal update — completed on
success, failed on any thrown error — and the only work after that
terminal write (the indicator upsert) leaves the etlJobs table untouched,
so the job's status never changes again: every observed status sequence is
in_progress followed by one terminal state. (Scheduled jobs are created in
status scheduled and never executed by this code, and each pipeline run is
invoked once for a freshly created job id, so no job sees two terminal
writes.) -/
theorem c1_job_status_state_machine (seriesId : String)
    (sd ed : Option String) (bridge : List String → Except String Json)
    (now0 now1 : Int) (s : Store) :
    let created := runRouteCreate seriesId sd ed now0 s
    let jid := created.1.id
    let s1 := created.2
    jobStatus s1 jid = some "in_progress"
      ∧ (match bridge (etlArgs seriesId sd ed) with
        | .error _ =>
          jobStatus (runETLPipeline jid seriesId sd ed bridge now1 s1) jid
            = some "failed"
        | .ok result =>
          match recordCount result with
          | .error _ =>
            jobStatus (runETLPipeline jid seriesId sd ed bridge now1 s1) jid
              = some "failed"
          | .ok recs =>
            let s2 := (updateEtlJob jid (completePatch now1 recs result) s1).2
            jobStatus s2 jid = some "completed"
              ∧ runETLPipeline jid seriesId sd ed bridge now1 s1
                  = ingestIndicator seriesId result now1 s2
              ∧ (ingestIndicator seriesId result now1 s2).etlJobs = s2.etlJobs
              ∧ jobStatus (runETLPipeline jid seriesId sd ed bridge now1 s1)
                  jid = some "completed") := by
  intro created jid s1
  have hget1 : Table.get s1.etlJobs jid = some created.1 :=
    createEtlJob_get _ s
  refine ⟨?_, ?_⟩
  · show (Table.get s1.etlJobs jid).map (fun j => j.status)
      = some "in_progress"
    rw [hget1]
    rfl
  · cases hbr : bridge (etlArgs seriesId sd ed) with
    | error msg =>
      simp only [runETLPipeline_eq, hbr]
      exact jobStatus_update_self jid _ s1 created.1 hget1
    | ok result =>
      cases hrc : recordCount result with
      | error m =>
        simp only [hrc, runETLPipeline_eq, hbr]
        exact jobStatus_update_self jid _ s1 created.1 hget1
      | ok recs =>
        have hpipe : runETLPipeline jid seriesId sd ed bridge now1 s1
            = ingestIndicator seriesId result now1
                (updateEtlJob jid (completePatch now1 recs result) s1).2 := by
          rw [runETLPipeline_eq, hbr]
          simp only [hrc]
        simp only [hrc]
        refine ⟨jobStatus_update_self jid _ s1 created.1 hget1, hpipe,
          (ingestIndicator_frame seriesId result now1 _).1, ?_⟩
        rw [hpipe]
        show (Table.get (ingestIndicator seriesId result now1
            (updateEtlJob jid (completePatch now1 recs result) s1).2).etlJobs
            jid).map (fun j => j.status) = some "completed"
        rw [(ingestIndicator_frame seriesId result now1 _).1]
        exact jobStatus_update_self jid _ s1 created.1 hget1

/-- Claim C2: when the bridge invocation of a submitted job fails (the
promise rejects: script missing, non-zero exit, or unparsable output — see
runPythonScript), the job is updated to failed with the error message and
endTime set, and the execution creates no AnalysisResult, no Indicator and
no Value; the same holds when the pipeline body itself throws after a
successful bridge call (a null output makes the record count throw before
the completed update). -/
theorem c2_bridge_failure_job_failed (seriesId : String)
    (sd ed : Option String) (msg : String) (now0 now1 : Int) (s : Store) :
    let created := runRouteCreate seriesId sd ed now0 s
    let jid := created.1.id
    let s1 := created.2
    let final := runETLPipeline jid seriesId sd ed
      (fun _ => .error msg) now1 s1
    (Table.get final.etlJobs jid
        = some (created.1.merge (failPatch now1 msg))
      ∧ (created.1.merge (failPatch now1 msg)).status = "failed"
      ∧ (created.1.merge (failPatch now1 msg)).error = some msg
      ∧ (created.1.merge (failPatch now1 msg)).endTime = some now1
      ∧ final.analysisResults = s1.analysisResults
      ∧ final.indicators = s1.indicators
      ∧ final.values = s1.values)
    ∧ (let final2 := runETLPipeline jid seriesId sd ed
          (fun _ => .ok Json.null) now1 s1
       jobStatus final2 jid = some "failed"
         ∧ (Table.get final2.etlJobs jid).map (fun j => j.error)
             = some (some
               "Cannot read properties of null (reading data)")
         ∧ final2.analysisResults = s1.analysisResults
         ∧ final2.indicators = s1.indicators
         ∧ final2.values = s1.values) := by
  intro created jid s1 final
  have hget1 : Table.get s1.etlJobs jid = some created.1 :=
    createEtlJob_get _ s
  have hfinal : final
      = (updateEtlJob jid (failPatch now1 msg) s1).2 := rfl
  constructor
  · refine ⟨?_, rfl, rfl, rfl, ?_, ?_, ?_⟩
    · rw [hfinal]
      exact updateEtlJob_get_self jid _ s1 created.1 hget1
    · exact (updateEtlJob_frame jid _ s1).2.1
    · exact (updateEtlJob_frame jid _ s1).1
    · exact (updateEtlJob_frame jid _ s1).2.2.1
  · intro final2
    have hfinal2 : final2
        = (updateEtlJob jid
            (failPatch now1
              "Cannot read properties of null (reading data)") s1).2 := rfl
    refine ⟨?_, ?_, ?_, ?_, ?_⟩
    · rw [hfinal2]
      exact jobStatus_update_self jid _ s1 created.1 hget1
    · rw [hfinal2, updateEtlJob_get_self jid _ s1 created.1 hget1]
      rfl
    · exact (updateEtlJob_frame jid _ s1).2.1
    · exact (updateEtlJob_frame jid _ s1).1
    · exact (updateEtlJob_frame jid _ s1).2.2.1

/-- Counterexample to claim C7 as stated: in a store holding a job with
null startTime inserted before a job with a present startTime, getEtlJobs
keeps the null-startTime job first (the comparator returns 0 for any pair
involving a null, and the ECMAScript sort is stable), so jobs with null
startTime are not sorted last. -/
theorem c7_counterexample_nulls_not_last :
    (getEtlJobs none nullStartStore).map (fun j => j.startTime)
        = [none, some 100]
      ∧ ¬ ((getEtlJobs none nullStartStore).map (fun j => j.startTime)
            = [some 100, none]) := by
  exact ⟨rfl, by decide⟩

/-- Claim C7 (amended): getEtlJobs returns a permutation of the stored
jobs, descending by startTime whenever every stored job has a non-null
startTime; a pair involving a null startTime is left in stored order by
the comparator (nulls are not moved to the end); a limit returns the first
n jobs of that ordering, except that a limit of 0 (falsy in JS) returns
everything. -/
theorem c7_jobs_ordering_nonnull (s : Store) (n : Nat)
    (h : ∀ j ∈ s.etlJobs.rows.map (fun p => p.2), j.startTime ≠ none) :
    List.Pairwise
        (fun a b : EtlJob => b.startTime.getD 0 ≤ a.startTime.getD 0)
        (getEtlJobs none s)
      ∧ List.Perm (getEtlJobs none s) (s.etlJobs.rows.map (fun p => p.2))
      ∧ getEtlJobs (some n) s
          = (if n = 0 then getEtlJobs none s
             else (getEtlJobs none s).take n) := by
  have htr : ∀ a b c : EtlJob, a.startTime ≠ none → b.startTime ≠ none →
      c.startTime ≠ none → decide (jobsCmp a b ≤ 0) = true →
      decide (jobsCmp b c ≤ 0) = true →
      decide (jobsCmp a c ≤ 0) = true := by
    intro a b c ha hb hc h1 h2
    cases hsa : a.startTime with
    | none => exact absurd hsa ha
    | some ta =>
      cases hsb : b.startTime with
      | none => exact absurd hsb hb
      | some tb =>
        cases hsc : c.startTime with
        | none => exact absurd hsc hc
        | some tc =>
          simp only [jobsCmp, hsa, hsb, hsc, decide_eq_true_eq] at h1 h2 ⊢
          omega
  have hto : ∀ a b : EtlJob, a.startTime ≠ none → b.startTime ≠ none →
      decide (jobsCmp a b ≤ 0) = true ∨
        decide (jobsCmp b a ≤ 0) = true := by
    intro a b _ _
    simp only [jobsCmp, decide_eq_true_eq]
    cases a.startTime <;> cases b.startTime <;> simp <;> omega
  have hperm : List.Perm (getEtlJobs none s)
      (s.etlJobs.rows.map (fun p => p.2)) := by
    simp only [getEtlJobs]
    exact jsSortBy_perm _ _
  refine ⟨?_, hperm, ?_⟩
  · have hp : List.Pairwise
        (fun a b : EtlJob => decide (jobsCmp a b ≤ 0) = true)
        (getEtlJobs none s) := by
      simp only [getEtlJobs]
      exact jsSortBy_pairwise _ (fun j => j.startTime ≠ none) htr hto _ h
    refine List.Pairwise.imp_of_mem ?_ hp
    intro a b hma hmb hr
    have hpa : a.startTime ≠ none := h a (hperm.mem_iff.mp hma)
    have hpb : b.startTime ≠ none := h b (hperm.mem_iff.mp hmb)
    cases hsa : a.startTime with
    | none => exact absurd hsa hpa
    | some ta =>
      cases hsb : b.startTime with
      | none => exact absurd hsb hpb
      | some tb =>
        simp only [jobsCmp, hsa, hsb, decide_eq_true_eq] at hr
        simp only [hsa, hsb, Option.getD_some]
        omega
  · rfl

/-- Witness for the amended C7 ordering theorem at a concrete two-job
store. -/
theorem c7_jobs_ordering_nonnull_witness :
    List.Pairwise
        (fun a b : EtlJob => b.startTime.getD 0 ≤ a.startTime.getD 0)
        (getEtlJobs none twoJobsStore)
      ∧ getEtlJobs (some 1) twoJobsStore
          = (getEtlJobs none twoJobsStore).take 1 := by
  have h := c7_jobs_ordering_nonnull twoJobsStore 1 (by decide)
  exact ⟨h.1, h.2.2⟩

/-- Counterexample to claim C8 as stated: on exit code 0 with unparsable
output, the rejection message is the fixed prefix plus the parser's reason
only — the code appends no truncated sample of the raw output. Here the
raw output "qqqq" shares no character with the resulting message. -/
theorem c8_counterexample_no_output_sample :
    runPythonScript "analysis.py" true 0 "qqqq" ""
        (fun _ => Except.error "bad JSON input")
      = Except.error "Failed to parse Python script output: bad JSON input"
      ∧ ¬ ('q' ∈
          ("Failed to parse Python script output: bad JSON input").toList) := by
  exact ⟨rfl, by decide⟩

/-- Claim C8 (amended): a non-zero exit rejects with the process error
message carrying the exit code and the accumulated stderr; exit 0 with a
parse failure rejects with the fixed prefix plus the parse failure reason
(no raw-output sample is appended by this code — whether the platform
parser's reason quotes the output is engine-specific); exit 0 with a parse
success resolves with the parsed value; a missing script rejects before
spawning. Every failure is one of these three structured messages. -/
theorem c8_bridge_error_classification (scriptPath stdout stderr : String)
    (code : Int) (jsonDecode : String → Except String Json) :
    (code ≠ 0 →
      runPythonScript scriptPath true code stdout stderr jsonDecode
        = .error ("Python script exited with code " ++ toString code
            ++ ": " ++ stderr))
    ∧ (∀ e, code = 0 → jsonDecode stdout = .error e →
        runPythonScript scriptPath true code stdout stderr jsonDecode
          = .error ("Failed to parse Python script output: " ++ e))
    ∧ (∀ j, code = 0 → jsonDecode stdout = .ok j →
        runPythonScript scriptPath true code stdout stderr jsonDecode
          = .ok j)
    ∧ runPythonScript scriptPath false code stdout stderr jsonDecode
        = .error ("Python script not found: " ++ scriptPath) := by
  refine ⟨?_, ?_, ?_, rfl⟩
  · intro hc
    simp [runPythonScript, hc]
  · intro e hc hp
    simp [runPythonScript, hc, hp]
  · intro j hc hp
    simp [runPythonScript, hc, hp]

/-- Witness for the amended C8 classification, at a concrete exit code,
stderr and parser. -/
theorem c8_bridge_error_classification_witness :
    runPythonScript "analysis.py" true 1 "" "boom" (fun _ => .ok Json.null)
        = .error ("Python script exited with code " ++ toString (1 : Int)
            ++ ": " ++ "boom")
      ∧ runPythonScript "analysis.py" true 0 "xyz" ""
          (fun _ => .error "Unexpected token")
        = .error ("Failed to parse Python script output: "
            ++ "Unexpected token") := by
  constructor
  · exact (c8_bridge_error_classification "analysis.py" "" "boom" 1
      (fun _ => .ok Json.null)).1 (by decide)
  · exact (c8_bridge_error_classification "analysis.py" "xyz" "" 0
      (fun _ => .error "Unexpected token")).2.1 "Unexpected token" rfl rfl

theorem getRows_of_mem_nodup (k : Nat) (v : α) (rows : List (Nat × α))
    (h : (k, v) ∈ rows) (hnd : (rows.map (fun p => p.1)).Nodup) :
    getRows k rows = some v := by
  induction rows with
  | nil => simp at h
  | cons p rest ih =>
    obtain ⟨k0, v0⟩ := p
    rcases List.mem_cons.mp h with h1 | h1
    · obtain ⟨hk, hv⟩ := Prod.mk.injEq .. ▸ h1.symm
      simp [getRows, hk, hv]
    · by_cases hk : k0 = k
      · subst hk
        exfalso
        have hmem : k0 ∈ rest.map (fun p => p.1) :=
          List.mem_map.mpr ⟨(k0, v), h1, rfl⟩
        simp only [List.map_cons, List.nodup_cons] at hnd
        exact hnd.1 hmem
      · simp only [getRows, if_neg hk]
        refine ih h1 ?_
        simp only [List.map_cons, List.nodup_cons] at hnd
        exact hnd.2

theorem getIndicatorBySymbol_get (sym : String) (s : Store) (ind : Indicator)
    (hfind : getIndicatorBySymbol sym s = some ind)
    (hkey : ∀ kv ∈ s.indicators.rows, kv.2.id = kv.1)
    (hnd : (s.indicators.rows.map (fun p => p.1)).Nodup) :
    Table.get s.indicators ind.id = some ind := by
  have hmem : ind ∈ s.indicators.rows.map (fun p => p.2) :=
    List.mem_of_find?_eq_some hfind
  rcases List.mem_map.mp hmem with ⟨kv, hkv, hkv2⟩
  have hid : ind.id = kv.1 := by
    rw [← hkv2]
    exact hkey kv hkv
  have hpair : (kv.1, ind) ∈ s.indicators.rows := by
    have : kv = (kv.1, ind) := by
      rw [← hkv2]
    rw [← this]
    exact hkv
  show getRows ind.id s.indicators.rows = some ind
  rw [hid]
  exact getRows_of_mem_nodup kv.1 ind s.indicators.rows hpair hnd

theorem updateIndicator_get_self (id : Nat) (p : IndicatorPatch) (s : Store)
    (i : Indicator) (h : Table.get s.indicators id = some i) :
    Table.get (updateIndicator id p s).2.indicators id = some (i.merge p) := by
  unfold updateIndicator
  rw [h]
  exact getRows_setRows_self _ _ _

theorem updateIndicator_get_ne (id k : Nat) (p : IndicatorPatch) (s : Store)
    (i : Indicator) (h : Table.get s.indicators id = some i) (hk : k ≠ id) :
    Table.get (updateIndicator id p s).2.indicators k
      = Table.get s.indicators k := by
  unfold updateIndicator
  rw [h]
  exact getRows_setRows_ne id k _ _ hk

theorem updateIndicator_length (id : Nat) (p : IndicatorPatch) (s : Store)
    (i : Indicator) (h : Table.get s.indicators id = some i) :
    (updateIndicator id p s).2.indicators.rows.length
      = s.indicators.rows.length := by
  unfold updateIndicator
  rw [h]
  refine length_setRows_of_mem _ _ _ ?_
  show getRows id s.indicators.rows ≠ none
  rw [show getRows id s.indicators.rows = Table.get s.indicators id from rfl,
    h]
  simp

/-- Claim C9: a successful ETL output carrying a truthy metadata field
either refreshes only lastUpdated of the already-stored indicator of that
symbol (same id, same length, all other rows untouched), or appends exactly
one new indicator built from the metadata with the documented fallbacks and
source fixed to FRED. The hypotheses are the store invariants maintained by
MemStorage: ids below the counter, rows keyed by their id field, no
duplicate keys. -/
theorem c9_indicator_upsert (seriesId : String) (result : Json) (now : Int)
    (s : Store) (hmd : optTruthy (Json.field result "metadata") = true)
    (hwf : Store.WF s)
    (hkey : ∀ kv ∈ s.indicators.rows, kv.2.id = kv.1)
    (hnd : (s.indicators.rows.map (fun p => p.1)).Nodup) :
    (match getIndicatorBySymbol seriesId s with
     | some existing =>
       Table.get (ingestIndicator seriesId result now s).indicators
           existing.id = some { existing with lastUpdated := now }
         ∧ (∀ k, k ≠ existing.id →
             Table.get (ingestIndicator seriesId result now s).indicators k
               = Table.get s.indicators k)
         ∧ (ingestIndicator seriesId result now s).indicators.rows.length
             = s.indicators.rows.length
     | none =>
       (ingestIndicator seriesId result now s).indicators.rows
         = s.indicators.rows
           ++ [(s.indicators.currentId,
                { toInsertIndicator :=
                    etlIndicatorInsert seriesId
                      ((Json.field result "metadata").getD Json.null) now,
                  id := s.indicators.currentId })])
    ∧ (ingestIndicator seriesId result now s).etlJobs = s.etlJobs
    ∧ (ingestIndicator seriesId result now s).analysisResults
        = s.analysisResults
    ∧ (ingestIndicator seriesId result now s).values = s.values
    ∧ (∀ md, (etlIndicatorInsert seriesId md now).source = "FRED"
        ∧ (etlIndicatorInsert seriesId md now).symbol = seriesId
        ∧ (etlIndicatorInsert seriesId md now).lastUpdated = now
        ∧ (optTruthy (Json.field md "name") = false →
            (etlIndicatorInsert seriesId md now).name = Json.str seriesId)
        ∧ (optTruthy (Json.field md "description") = false →
            (etlIndicatorInsert seriesId md now).description = Json.str "")
        ∧ (optTruthy (Json.field md "frequency") = false →
            (etlIndicatorInsert seriesId md now).frequency
              = Json.str "unknown")
        ∧ (optTruthy (Json.field md "units") = false →
            (etlIndicatorInsert seriesId md now).units = Json.str "")) := by
  cases hf : Json.field result "metadata" with
  | none =>
    rw [hf] at hmd
    simp [optTruthy] at hmd
  | some md =>
    have htru : md.truthy = true := by
      rw [hf] at hmd
      simpa [optTruthy] using hmd
    have hing : ingestIndicator seriesId result now s
        = (match getIndicatorBySymbol seriesId s with
           | some existing =>
             (updateIndicator existing.id { lastUpdated := some now } s).2
           | none =>
             (createIndicator (etlIndicatorInsert seriesId md now) s).2) := by
      simp [ingestIndicator, hf, htru]
    refine ⟨?_, (ingestIndicator_frame _ _ _ _).1,
      (ingestIndicator_frame _ _ _ _).2.1,
      (ingestIndicator_frame _ _ _ _).2.2, ?_⟩
    · cases hgi : getIndicatorBySymbol seriesId s with
      | some existing =>
        rw [hgi] at hing
        have hgetex : Table.get s.indicators existing.id = some existing :=
          getIndicatorBySymbol_get seriesId s existing hgi hkey hnd
        simp only [hgi]
        rw [hing]
        refine ⟨?_, ?_, ?_⟩
        · exact updateIndicator_get_self existing.id _ s existing hgetex
        · intro k hk
          exact updateIndicator_get_ne existing.id k _ s existing hgetex hk
        · exact updateIndicator_length existing.id _ s existing hgetex
      | none =>
        rw [hgi] at hing
        simp only [hgi]
        rw [hing]
        exact create_rows_of_fresh s.indicators _ hwf.2.1
    · intro md'
      refine ⟨rfl, rfl, rfl, ?_, ?_, ?_, ?_⟩ <;>
        intro hfal
      · cases hn : Json.field md' "name" with
        | none => simp [etlIndicatorInsert, jsOr, hn]
        | some j =>
          rw [hn] at hfal
          simp only [optTruthy] at hfal
          simp [etlIndicatorInsert, jsOr, hn, hfal]
      · cases hn : Json.field md' "description" with
        | none => simp [etlIndicatorInsert, jsOr, hn]
        | some j =>
          rw [hn] at hfal
          simp only [optTruthy] at hfal
          simp [etlIndicatorInsert, jsOr, hn, hfal]
      · cases hn : Json.field md' "frequency" with
        | none => simp [etlIndicatorInsert, jsOr, hn]
        | some j =>
          rw [hn] at hfal
          simp only [optTruthy] at hfal
          simp [etlIndicatorInsert, jsOr, hn, hfal]
      · cases hn : Json.field md' "units" with
        | none => simp [etlIndicatorInsert, jsOr, hn]
        | some j =>
          rw [hn] at hfal
          simp only [optTruthy] at hfal
          simp [etlIndicatorInsert, jsOr, hn, hfal]

/-- Witness for C9 at a concrete metadata-carrying output on the empty
store: exactly one indicator is appended. -/
theorem c9_indicator_upsert_witness :
    (ingestIndicator "GDP2"
        (Json.obj [("metadata", Json.obj [("name", Json.str "G")])]) 7
        emptyStore).indicators.rows
      = emptyStore.indicators.rows
        ++ [(emptyStore.indicators.currentId,
             { toInsertIndicator :=
                 etlIndicatorInsert "GDP2"
                   ((Json.field
                       (Json.obj [("metadata",
                          Json.obj [("name", Json.str "G")])])
                       "metadata").getD Json.null) 7,
               id := emptyStore.indicators.currentId })] := by
  have h := c9_indicator_upsert "GDP2"
    (Json.obj [("metadata", Json.obj [("name", Json.str "G")])]) 7
    emptyStore (by decide) emptyStore_wf
    (by intro kv hkv; simp [emptyStore, Table.empty] at hkv)
    (by simp [emptyStore, Table.empty])
  exact h.1

/-- Claim C10: for a multi-id series query s1,"..." (s1 itself containing
no comma), the forecast, moving-averages and volatility routes build their
bridge argv from s1 alone — every id after the first comma is dropped —
and the forecast route records indicators = [s1] in its AnalysisResult;
only the correlation route passes the full comma separated string to the
bridge and records the full split list. -/
theorem c10_only_first_series_id (s1 s2 : String) (h : ¬ ',' ∈ s1.toList)
    (model periods window : String) (sd ed : Option String)
    (out : Json) (now : Int) :
    forecastArgs (s1 ++ "," ++ s2) model periods sd ed
        = ["forecast", "--series", s1, "--model", model,
            "--periods", periods]
          ++ optArg "--start_date" sd ++ optArg "--end_date" ed
      ∧ movingAveragesArgs (s1 ++ "," ++ s2) sd ed
        = ["moving_averages", "--series", s1]
          ++ optArg "--start_date" sd ++ optArg "--end_date" ed
      ∧ volatilityArgs (s1 ++ "," ++ s2) window sd ed
        = ["volatility", "--series", s1, "--window", window]
          ++ optArg "--start_date" sd ++ optArg "--end_date" ed
      ∧ (forecastInsert (s1 ++ "," ++ s2) model periods sd ed
          out now).indicators = [s1]
      ∧ correlationArgs (s1 ++ "," ++ s2) sd ed
        = ["correlation", "--series", s1 ++ "," ++ s2]
          ++ optArg "--start_date" sd ++ optArg "--end_date" ed
      ∧ (correlationInsert (s1 ++ "," ++ s2) sd ed out now).indicators
        = jsSplitComma (s1 ++ "," ++ s2) := by
  have hh := jsSplitComma_head_append s1 s2 h
  refine ⟨?_, ?_, ?_, ?_, rfl, rfl⟩
  · simp only [forecastArgs, hh]
  · simp only [movingAveragesArgs, hh]
  · simp only [volatilityArgs, hh]
  · simp only [forecastInsert, hh]

/-- Witness for C10 at the concrete query GDP,CPI,UNRATE. -/
theorem c10_only_first_series_id_witness :
    forecastArgs ("GDP" ++ "," ++ "CPI,UNRATE") "arima" "10" none none
        = ["forecast", "--series", "GDP", "--model", "arima",
            "--periods", "10"]
      ∧ volatilityArgs ("GDP" ++ "," ++ "CPI,UNRATE") "30" none none
        = ["volatility", "--series", "GDP", "--window", "30"] := by
  have h := c10_only_first_series_id "GDP" "CPI,UNRATE" (by decide)
    "arima" "10" "30" none none Json.null 0
  exact ⟨h.1, h.2.2.1⟩

/-- Counterexample to claim C4 as stated: a volatility request whose
bridge invocation succeeds (an object payload with no error field)
persists no AnalysisResult at all — the route has no createAnalysisResult
call — and the moving-averages route behaves the same. -/
theorem c4_counterexample_volatility_not_persisted :
    (volatilityRoute (some "GDP") none none none
        (fun _ => .ok (Json.obj [])) emptyStore).1 = .ok (Json.obj [])
      ∧ (volatilityRoute (some "GDP") none none none
          (fun _ => .ok (Json.obj []))
          emptyStore).2.analysisResults.rows.length = 0
      ∧ ¬ ((volatilityRoute (some "GDP") none none none
            (fun _ => .ok (Json.obj []))
            emptyStore).2.analysisResults.rows.length
          = emptyStore.analysisResults.rows.length + 1)
      ∧ (movingAveragesRoute (some "GDP") none none
          (fun _ => .ok (Json.obj []))
          emptyStore).2.analysisResults.rows.length = 0 := by
  refine ⟨rfl, rfl, by decide, rfl⟩

/-- Claim C4 (amended): on a successful bridge invocation, the correlation
route persists exactly one AnalysisResult unconditionally; the forecast
route persists exactly one AnalysisResult precisely when the parsed output
carries no truthy error field (a null output throws and nothing is
stored); the moving-averages and volatility routes return the payload and
never persist an AnalysisResult. -/
theorem c4_analysis_persistence_by_type (ser : String) (hser : ser ≠ "")
    (sd ed model periods window : Option String) (out : Json) (now : Int)
    (s : Store) (hwf : Store.WF s) :
    (correlationRoute (some ser) sd ed (fun _ => .ok out) now
          s).2.analysisResults.rows
        = s.analysisResults.rows
          ++ [(s.analysisResults.currentId,
               { toInsertAnalysisResult :=
                   correlationInsert ser sd ed out now,
                 id := s.analysisResults.currentId })]
      ∧ (correlationRoute (some ser) sd ed (fun _ => .ok out) now s).1
          = .ok out
      ∧ movingAveragesRoute (some ser) sd ed (fun _ => .ok out) s
          = (.ok out, s)
      ∧ volatilityRoute (some ser) sd ed window (fun _ => .ok out) s
          = (.ok out, s)
      ∧ (match jsField out "error" with
         | .error msg =>
           forecastRoute (some ser) sd ed model periods
               (fun _ => .ok out) now s
             = (.svrError msg, s)
         | .ok errField =>
           if optTruthy errField then
             forecastRoute (some ser) sd ed model periods
                 (fun _ => .ok out) now s
               = (.ok out, s)
           else
             (forecastRoute (some ser) sd ed model periods
                 (fun _ => .ok out) now s).2.analysisResults.rows
               = s.analysisResults.rows
                 ++ [(s.analysisResults.currentId,
                      { toInsertAnalysisResult :=
                          forecastInsert ser (model.getD "arima")
                            (periods.getD "10") sd ed out now,
                        id := s.analysisResults.currentId })]
             ∧ (forecastRoute (some ser) sd ed model periods
                 (fun _ => .ok out) now s).1 = .ok out) := by
  refine ⟨?_, ?_, ?_, ?_, ?_⟩
  · simp only [correlationRoute, if_neg hser]
    exact create_rows_of_fresh s.analysisResults _ hwf.2.2.2.2
  · simp only [correlationRoute, if_neg hser]
  · simp only [movingAveragesRoute, if_neg hser]
  · simp only [volatilityRoute, if_neg hser]
  · cases hjf : jsField out "error" with
    | error msg =>
      simp only [hjf, forecastRoute, if_neg hser]
    | ok errField =>
      cases htru : optTruthy errField with
      | true =>
        simp only [hjf, htru, forecastRoute, if_neg hser, if_pos]
      | false =>
        simp only [hjf, htru, forecastRoute, if_neg hser]
        constructor
        · exact create_rows_of_fresh s.analysisResults _ hwf.2.2.2.2
        · rfl

/-- Witness for the amended C4 persistence theorem: correlation persists
one result on the empty store, volatility persists none. -/
theorem c4_analysis_persistence_by_type_witness :
    (correlationRoute (some "GDP") none none (fun _ => .ok (Json.obj []))
        3 emptyStore).2.analysisResults.rows
      = emptyStore.analysisResults.rows
        ++ [(emptyStore.analysisResults.currentId,
             { toInsertAnalysisResult :=
                 correlationInsert "GDP" none none (Json.obj []) 3,
               id := emptyStore.analysisResults.currentId })]
      ∧ volatilityRoute (some "GDP") none none none
          (fun _ => .ok (Json.obj [])) emptyStore
        = (.ok (Json.obj []), emptyStore) := by
  have h := c4_analysis_persistence_by_type "GDP" (by decide) none none
    none none none (Json.obj []) 3 emptyStore emptyStore_wf
  exact ⟨h.1, h.2.2.2.1⟩
